import Mathlib

/-!
Verification of the SmartTasks Gmail add-on front-end against its design
specification.

The program keeps one MongoDB collection per user.  Each record is a JSON
document; fields can be absent, which we model with `Option`.  The store is a
`List Document` in insertion order; the Data API operations used by the code
(`find`, `findOne`-style first match, `updateOne` with and without `upsert`,
`insertOne` as an append) are modelled below.  Gmail messages delivered by
`GmailApp.search` are modelled as an inbox list of `EmailMessage`, one per
thread (the code only looks at the most recent message of each thread).
-/

/-- One inbox message (the most recent message of a Gmail thread), as the code
reads it: `getId`, `getSubject`, `getFrom`, `getPlainBody`, `getDate`, plus
whether the message sits in the `primary` category (part_000 searches with
`category:primary`, the appscript-frontend variant does not). -/
structure EmailMessage where
  id : String
  subject : String
  sender : String
  body : String
  date : Int
  primary : Bool
  deriving Repr, DecidableEq

/-- A stored JSON document of the task collection.  Every field except the
`emailId` key can be absent (`none`): ingestion inserts only the email fields
plus `processed`, `deleteTask` unsets most fields, and the control record has
only `triggered`, `hastask`, `processed`. -/
structure Document where
  emailId : String
  subject : Option String
  sender : Option String
  body : Option String
  createdat : Option Int
  processed : Option Bool
  hastask : Option Bool
  task : Option String
  taskbody : Option String
  urgency : Option String
  deadline : Option Int
  completed : Option Bool
  triggered : Option Bool
  deriving Repr, DecidableEq

/-- The filter `{ emailId: id }` used by every store call of the add-on. -/
def byId (id : String) : Document → Bool :=
  fun d => d.emailId == id

/-- First stored document matching `{ emailId: id }` (the document the
`findOne`-style reads of the code observe, `documents[0]` of a find). -/
def findOneByEmailId (s : List Document) (id : String) : Option Document :=
  s.find? (byId id)

/-- MongoDB `updateOne`: apply `f` to the first document matching `p`, leave
the rest of the collection unchanged. -/
def updateFirst {α : Type} (p : α → Bool) (f : α → α) : List α → List α
  | [] => []
  | d :: ds => if p d then f d :: ds else d :: updateFirst p f ds

/-- Response envelope of the Data API `find` action: a `documents` array.
Every read of `findEndpoint` in the source except the ingestion check parses
this `documents` field. -/
structure FindResponse where
  documents : List Document

/-- The ingestion check of part_000 reads `checkResult.document` (singular).
The `find` action response carries only `documents`, so this JavaScript
property access yields `undefined`; we model the absent field as `none`. -/
def FindResponse.documentField (_ : FindResponse) : Option Document :=
  none

/-- The sender excluded from ingestion in both variants. -/
def excludedEmail : String := "smarttasks.lmdify@gmail.com"

/-- The document both variants insert for a fetched message:
`{subject, sender, body, createdat, emailId, processed: false}`. -/
def ingestDoc (m : EmailMessage) : Document :=
  { emailId := m.id,
    subject := some m.subject,
    sender := some m.sender,
    body := some m.body,
    createdat := some m.date,
    processed := some false,
    hastask := none,
    task := none,
    taskbody := none,
    urgency := none,
    deadline := none,
    completed := none,
    triggered := none }

/-- The Gmail search both variants run, abstracted over the inbox: keep the
threads whose most recent message is on or after the cutoff date (the
`after:` clause) and, when `requirePrimary` is set, in the primary category,
then take the first `limit` threads. -/
def searchInbox (cutoff : Int) (requirePrimary : Bool) (limit : Nat)
    (inbox : List EmailMessage) : List EmailMessage :=
  (inbox.filter
    (fun m => decide (cutoff ≤ m.date) && (!requirePrimary || m.primary))).take limit

/-- The per-thread loop of part_000 `fetchAndStoreEmails`: skip the excluded
sender, run the existence check against `findEndpoint`, and insert when the
check's `document` field is falsy.  Because the `find` response has no
singular `document` field (see `FindResponse.documentField`), the skip branch
is unreachable and every non-excluded message is inserted. -/
def fetchLoop : List EmailMessage → List Document → List Document
  | [], s => s
  | m :: ms, s =>
    if m.sender == excludedEmail then fetchLoop ms s
    else
      let checkResult : FindResponse := ⟨s.filter (byId m.id)⟩
      match checkResult.documentField with
      | some _ => fetchLoop ms s
      | none => fetchLoop ms (s ++ [ingestDoc m])

/-- The per-thread loop of the appscript-frontend `fetchAndStoreEmails`:
skip the excluded sender, insert unconditionally. -/
def frontendLoop : List EmailMessage → List Document → List Document
  | [], s => s
  | m :: ms, s =>
    if m.sender == excludedEmail then frontendLoop ms s
    else frontendLoop ms (s ++ [ingestDoc m])

/-- part_000 `fetchAndStoreEmails`: search the inbox for the last 14 days
(`86400000 * 14` ms), primary category, up to 50 threads, then run the
ingestion loop. -/
def fetchAndStoreEmails (now : Int) (inbox : List EmailMessage)
    (s : List Document) : List Document :=
  fetchLoop (searchInbox (now - 86400000 * 14) true 50 inbox) s

/-- appscript-frontend `fetchAndStoreEmails`: search the inbox for the last 7
days (`604800000` ms), any category, up to 10 threads, then run its ingestion
loop. -/
def fetchAndStoreEmailsFrontend (now : Int) (inbox : List EmailMessage)
    (s : List Document) : List Document :=
  frontendLoop (searchInbox (now - 604800000) false 10 inbox) s

/-- The form input of the add/edit task cards.  An empty Apps Script text
input is absent from `e.formInput` (modelled `none`); the urgency radio group
always has a selected value and the date-time picker always carries a
millisecond timestamp. -/
structure FormInput where
  task : Option String
  taskbody : Option String
  urgency : String
  deadline : Int
  deriving Repr, DecidableEq

/-- The `taskData` object of `addTask`/`editTask` applied to a document as a
`$set` update (or spread into a fresh insert): `task`/`taskbody` are written
only when present in the form (JSON.stringify drops `undefined` members),
`urgency`, `completed: false`, `hastask: true`, `processed: true` are always
written, and `deadline` is written only when the picked time differs from
today's midnight `tm` (the picker default). -/
def applyTaskData (fi : FormInput) (tm : Int) (d : Document) : Document :=
  { d with
    task := (match fi.task with | some v => some v | none => d.task),
    taskbody := (match fi.taskbody with | some v => some v | none => d.taskbody),
    urgency := some fi.urgency,
    completed := some false,
    hastask := some true,
    processed := some true,
    deadline := if fi.deadline == tm then d.deadline else some fi.deadline }

/-- The bare email document `addTask` builds for its insert branch before
spreading `taskData`: `{emailId, subject, sender, body, createdat}`. -/
def emailDocOf (m : EmailMessage) : Document :=
  { emailId := m.id,
    subject := some m.subject,
    sender := some m.sender,
    body := some m.body,
    createdat := some m.date,
    processed := none,
    hastask := none,
    task := none,
    taskbody := none,
    urgency := none,
    deadline := none,
    completed := none,
    triggered := none }

/-- part_000 `addTask`: look up the current message's document; if found,
`updateOne` it with `$set taskData`, otherwise insert the email fields spread
with `taskData`.  `m` is the current Gmail message, `tm` today's midnight. -/
def addTask (fi : FormInput) (tm : Int) (m : EmailMessage)
    (s : List Document) : List Document :=
  match findOneByEmailId s m.id with
  | some _ => updateFirst (byId m.id) (applyTaskData fi tm) s
  | none => s ++ [applyTaskData fi tm (emailDocOf m)]

/-- part_000 `editTask`: `updateOne` on `{emailId: taskId}` with
`$set taskData` (the follow-up fetch is read-only). -/
def editTask (fi : FormInput) (tm : Int) (taskId : String)
    (s : List Document) : List Document :=
  updateFirst (byId taskId) (applyTaskData fi tm) s

/-- The update document of part_000 `deleteTask`: `$unset` of `subject`,
`sender`, `body`, `createdat`, `task`, `taskbody`, `deadline`, `urgency`,
`completed`, and `$set {hastask: false, processed: true}`. -/
def resetTaskFields (d : Document) : Document :=
  { d with
    subject := none,
    sender := none,
    body := none,
    createdat := none,
    task := none,
    taskbody := none,
    deadline := none,
    urgency := none,
    completed := none,
    hastask := some false,
    processed := some true }

/-- part_000 `deleteTask`: `updateOne` on `{emailId}` applying the unset/set
update above; the document itself is never removed. -/
def deleteTask (taskId : String) (s : List Document) : List Document :=
  updateFirst (byId taskId) resetTaskFields s

/-- part_000 `toggleTaskComplete`: fetch `documents[0]` for the task id,
compute the new flag (the code sets it to `true` exactly when the stored
`completed` is literally `false`), then `updateOne` with
`$set {completed: newCompleted}`.  When the fetch returns no document the
JavaScript dereference of `undefined` throws before any write, so the store
is unchanged. -/
def toggleTaskComplete (s : List Document) (taskId : String) : List Document :=
  match findOneByEmailId s taskId with
  | none => s
  | some fetched =>
      let newCompleted : Bool := if fetched.completed == some false then true else false
      updateFirst (byId taskId) (fun d => { d with completed := some newCompleted }) s

/-- The `$set` document shared by `createTrigger` (`b = true`) and
`deleteTrigger` (`b = false`): `{triggered: b, hastask: false, processed: true}`. -/
def triggerSet (b : Bool) (d : Document) : Document :=
  { d with
    triggered := some b,
    hastask := some false,
    processed := some true }

/-- The control record a `createTrigger` upsert creates when no document
matches `{emailId: 'trigger'}`: the filter's equality field plus the `$set`
fields. -/
def freshTriggerDoc (b : Bool) : Document :=
  { emailId := "trigger",
    subject := none,
    sender := none,
    body := none,
    createdat := none,
    processed := some true,
    hastask := some false,
    task := none,
    taskbody := none,
    urgency := none,
    deadline := none,
    completed := none,
    triggered := some b }

/-- `updateOne` with `upsert: true` on `{emailId: 'trigger'}`. -/
def upsertTriggered (b : Bool) (s : List Document) : List Document :=
  match findOneByEmailId s "trigger" with
  | some _ => updateFirst (byId "trigger") (triggerSet b) s
  | none => s ++ [freshTriggerDoc b]

/-- part_000 `createTrigger`: first runs `fetchAndStoreEmails`, then upserts
the control record with `{triggered: true, hastask: false, processed: true}`
(the `ScriptApp` trigger registration is outside the store). -/
def createTrigger (now : Int) (inbox : List EmailMessage)
    (s : List Document) : List Document :=
  upsertTriggered true (fetchAndStoreEmails now inbox s)

/-- part_000 `deleteTrigger`: `updateOne` (no upsert) on
`{emailId: 'trigger'}` with `{triggered: false, hastask: false,
processed: true}`. -/
def deleteTrigger (s : List Document) : List Document :=
  updateFirst (byId "trigger") (triggerSet false) s

/-- The find filter of part_000 `fetchAndDisplayTasks`: `hastask: true`,
optionally a concrete urgency, and `emailId: {$ne: currentEmailId}`. -/
def displayQueryMatch (filterStr : String) (currentEmailId : String)
    (d : Document) : Bool :=
  d.hastask == some true &&
  (if filterStr == "Urgent" then d.urgency == some "Urgent"
   else if filterStr == "Somewhat Urgent" then d.urgency == some "Somewhat Urgent"
   else if filterStr == "Not Urgent" then d.urgency == some "Not Urgent"
   else true) &&
  !(d.emailId == currentEmailId)

/-- The find filter of part_000 `fetchCurrentEmailTask`:
`{emailId: currentEmailId, hastask: true}`. -/
def currentEmailQueryMatch (currentEmailId : String) (d : Document) : Bool :=
  byId currentEmailId d && d.hastask == some true

/-! ### Generic lemmas about the store primitives -/

theorem length_updateFirst {α : Type} (p : α → Bool) (f : α → α) :
    ∀ s : List α, (updateFirst p f s).length = s.length := by
  intro s
  induction s with
  | nil => rfl
  | cons d ds ih =>
      by_cases hp : p d <;> simp [updateFirst, hp, ih]

theorem mem_updateFirst {α : Type} {p : α → Bool} {f : α → α} :
    ∀ {s : List α} {x : α}, x ∈ updateFirst p f s →
      x ∈ s ∨ ∃ y, s.find? p = some y ∧ x = f y := by
  intro s
  induction s with
  | nil => intro x hx; exact absurd hx (by simp [updateFirst])
  | cons d ds ih =>
      intro x hx
      by_cases hp : p d
      · simp only [updateFirst, if_pos hp] at hx
        rcases List.mem_cons.mp hx with h | h
        · exact Or.inr ⟨d, by simp [List.find?_cons, hp], h⟩
        · exact Or.inl (List.mem_cons_of_mem _ h)
      · simp only [updateFirst, if_neg hp] at hx
        rcases List.mem_cons.mp hx with h | h
        · exact Or.inl (h ▸ List.mem_cons_self _ _)
        · rcases ih h with h' | ⟨y, hy, hxy⟩
          · exact Or.inl (List.mem_cons_of_mem _ h')
          · exact Or.inr ⟨y, by simp [List.find?_cons, hp, hy], hxy⟩

theorem find?_updateFirst {α : Type} {p : α → Bool} {f : α → α}
    (hpf : ∀ x, p (f x) = p x) :
    ∀ s : List α, (updateFirst p f s).find? p = (s.find? p).map f := by
  intro s
  induction s with
  | nil => rfl
  | cons d ds ih =>
      by_cases hp : p d
      · simp [updateFirst, if_pos hp, List.find?_cons, hpf, hp]
      · simp [updateFirst, if_neg hp, List.find?_cons, hpf, hp, ih]

theorem image_mem_updateFirst {α : Type} {p : α → Bool} {f : α → α} :
    ∀ {s : List α} {y : α}, s.find? p = some y → f y ∈ updateFirst p f s := by
  intro s
  induction s with
  | nil => intro y hy; simp at hy
  | cons d ds ih =>
      intro y hy
      by_cases hp : p d
      · simp [List.find?_cons, hp] at hy
        subst hy
        simp [updateFirst, hp]
      · simp [List.find?_cons, hp] at hy
        simp [updateFirst, if_neg hp, ih hy]

theorem updateFirst_of_find?_none {α : Type} {p : α → Bool} {f : α → α} :
    ∀ {s : List α}, s.find? p = none → updateFirst p f s = s := by
  intro s
  induction s with
  | nil => intro _; rfl
  | cons d ds ih =>
      intro h
      by_cases hp : p d
      · simp [List.find?_cons, hp] at h
      · simp [List.find?_cons, hp] at h
        simp [updateFirst, if_neg hp, ih (List.find?_eq_none.mpr (by simpa using h))]

theorem updateFirst_updateFirst {α : Type} {p : α → Bool} {f g : α → α}
    (hpf : ∀ x, p (f x) = p x) :
    ∀ s : List α, updateFirst p g (updateFirst p f s) =
      updateFirst p (fun x => g (f x)) s := by
  intro s
  induction s with
  | nil => rfl
  | cons d ds ih =>
      by_cases hp : p d
      · simp [updateFirst, if_pos hp, hpf, hp]
      · simp [updateFirst, if_neg hp, ih]

theorem updateFirst_of_fix {α : Type} {p : α → Bool} {f : α → α} :
    ∀ {s : List α} {y : α}, s.find? p = some y → f y = y → updateFirst p f s = s := by
  intro s
  induction s with
  | nil => intro y hy; simp at hy
  | cons d ds ih =>
      intro y hy hfy
      by_cases hp : p d
      · simp [List.find?_cons, hp] at hy
        simp [updateFirst, if_pos hp, hy ▸ hfy]
      · simp [List.find?_cons, hp] at hy
        simp [updateFirst, if_neg hp, ih hy hfy]

theorem find?_append_of_none {α : Type} {p : α → Bool} {s₁ : List α}
    (s₂ : List α) (h : s₁.find? p = none) :
    (s₁ ++ s₂).find? p = s₂.find? p := by
  simp [List.find?_append, h]


/-! ### Lemmas about the ingestion loops -/

theorem mem_fetchLoop :
    ∀ {msgs : List EmailMessage} {s : List Document} {d : Document},
      d ∈ fetchLoop msgs s → d ∈ s ∨ ∃ m ∈ msgs, d = ingestDoc m := by
  intro msgs
  induction msgs with
  | nil => intro s d hd; exact Or.inl hd
  | cons m ms ih =>
      intro s d hd
      by_cases hex : m.sender == excludedEmail
      · rw [show fetchLoop (m :: ms) s = fetchLoop ms s by
          simp [fetchLoop, hex]] at hd
        rcases ih hd with h | ⟨m', hm', h'⟩
        · exact Or.inl h
        · exact Or.inr ⟨m', List.mem_cons_of_mem _ hm', h'⟩
      · rw [show fetchLoop (m :: ms) s = fetchLoop ms (s ++ [ingestDoc m]) by
          simp [fetchLoop, hex, FindResponse.documentField]] at hd
        rcases ih hd with h | ⟨m', hm', h'⟩
        · rcases List.mem_append.mp h with h | h
          · exact Or.inl h
          · exact Or.inr ⟨m, List.mem_cons_self _ _, List.mem_singleton.mp h⟩
        · exact Or.inr ⟨m', List.mem_cons_of_mem _ hm', h'⟩

theorem mem_frontendLoop :
    ∀ {msgs : List EmailMessage} {s : List Document} {d : Document},
      d ∈ frontendLoop msgs s → d ∈ s ∨ ∃ m ∈ msgs, d = ingestDoc m := by
  intro msgs
  induction msgs with
  | nil => intro s d hd; exact Or.inl hd
  | cons m ms ih =>
      intro s d hd
      by_cases hex : m.sender == excludedEmail
      · rw [show frontendLoop (m :: ms) s = frontendLoop ms s by
          simp [frontendLoop, hex]] at hd
        rcases ih hd with h | ⟨m', hm', h'⟩
        · exact Or.inl h
        · exact Or.inr ⟨m', List.mem_cons_of_mem _ hm', h'⟩
      · rw [show frontendLoop (m :: ms) s = frontendLoop ms (s ++ [ingestDoc m]) by
          simp [frontendLoop, hex]] at hd
        rcases ih hd with h | ⟨m', hm', h'⟩
        · rcases List.mem_append.mp h with h | h
          · exact Or.inl h
          · exact Or.inr ⟨m, List.mem_cons_self _ _, List.mem_singleton.mp h⟩
        · exact Or.inr ⟨m', List.mem_cons_of_mem _ hm', h'⟩

theorem searchInbox_subset (cutoff : Int) (requirePrimary : Bool) (limit : Nat)
    (inbox : List EmailMessage) :
    ∀ m ∈ searchInbox cutoff requirePrimary limit inbox, m ∈ inbox := by
  intro m hm
  have h1 : m ∈ (inbox.filter
      (fun m => decide (cutoff ≤ m.date) && (!requirePrimary || m.primary))) :=
    List.take_subset _ _ hm
  exact List.mem_of_mem_filter h1


/-! ### Concrete fixtures used by counterexamples and witnesses -/

/-- A recent primary inbox message from a regular sender. -/
def mA : EmailMessage :=
  { id := "m1",
    subject := "s1",
    sender := "alice@example.com",
    body := "b1",
    date := 100,
    primary := true }

/-- An inbox message ten days old (its `date` is 4 days past the epoch; the
example `now` below is 14 days past the epoch). -/
def mOld : EmailMessage :=
  { id := "old",
    subject := "s2",
    sender := "bob@example.com",
    body := "b2",
    date := 345600000,
    primary := true }

/-- A fully populated, completed task document for message `m1`. -/
def docWithTask : Document :=
  { emailId := "m1",
    subject := some "hello",
    sender := some "alice",
    body := some "text",
    createdat := some 10,
    processed := some true,
    hastask := some true,
    task := some "t",
    taskbody := some "tb",
    urgency := some "Urgent",
    deadline := some 42,
    completed := some true,
    triggered := none }

/-- A form submission whose task headline was left blank (absent from
`e.formInput`). -/
def formNoTask : FormInput :=
  { task := none,
    taskbody := none,
    urgency := "Not Urgent",
    deadline := 0 }

/-- A form submission with every field supplied. -/
def formFull : FormInput :=
  { task := some "Do it",
    taskbody := some "desc",
    urgency := "Urgent",
    deadline := 5 }

/-! ### C1: deleteTask resets the document but also clears the email record -/

/-- C1, counterexample: the claim says the `subject`, `sender`, `body`,
`createdAt` captured at ingestion are unchanged by the delete-task reset, but
`deleteTask` `$unset`s `subject` (among others) on the stored document. -/
theorem c1_counterexample :
    ¬ (∀ d ∈ deleteTask "m1" [docWithTask], d.subject = docWithTask.subject) := by
  decide

/-- C1, amended: `deleteTask` keeps the document in the store (no removal)
and rewrites the stored document to `hastask = false`, `processed = true`
with the task fields cleared, but it clears the email record fields
`subject`, `sender`, `body`, `createdat` as well; only `emailId` (and any
`triggered` flag) survive.  Every other stored document is untouched. -/
theorem c1_amended (s : List Document) (id : String) (d : Document)
    (h : findOneByEmailId s id = some d) :
    (deleteTask id s).length = s.length ∧
    resetTaskFields d ∈ deleteTask id s ∧
    (resetTaskFields d).emailId = d.emailId ∧
    (resetTaskFields d).triggered = d.triggered ∧
    (resetTaskFields d).hastask = some false ∧
    (resetTaskFields d).processed = some true ∧
    (resetTaskFields d).task = none ∧
    (resetTaskFields d).taskbody = none ∧
    (resetTaskFields d).urgency = none ∧
    (resetTaskFields d).deadline = none ∧
    (resetTaskFields d).completed = none ∧
    (resetTaskFields d).subject = none ∧
    (resetTaskFields d).sender = none ∧
    (resetTaskFields d).body = none ∧
    (resetTaskFields d).createdat = none ∧
    ∀ x ∈ deleteTask id s, x ∈ s ∨ x = resetTaskFields d := by
  refine ⟨length_updateFirst _ _ s, image_mem_updateFirst h, rfl, rfl, rfl, rfl,
    rfl, rfl, rfl, rfl, rfl, rfl, rfl, rfl, rfl, ?_⟩
  intro x hx
  rcases mem_updateFirst hx with h' | ⟨y, hy, hxy⟩
  · exact Or.inl h'
  · rw [show findOneByEmailId s id = s.find? (byId id) from rfl] at h
    rw [h] at hy
    cases hy
    exact Or.inr hxy

/-- C1, witness for the amended theorem at a concrete store. -/
theorem c1_amended_witness :
    resetTaskFields docWithTask ∈ deleteTask "m1" [docWithTask] :=
  (c1_amended [docWithTask] "m1" docWithTask (by decide)).2.1

/-! ### C2: the ingestion dedup check never fires -/

/-- C2, code bug: on a store already holding the document for message `m1`,
running part_000's `fetchAndStoreEmails` inserts a second document with the
same `emailId`, because its existence check reads the absent `document` field
of the `find` response. -/
theorem c2_bug_eval :
    (fetchAndStoreEmails 100 [mA] [ingestDoc mA]).countP (byId "m1") = 2 := by
  decide

/-! ### C3: inserted documents carry the email fields and processed=false -/

/-- C3: in both variants every document the ingestion adds to the store is
exactly the `ingestDoc` of some searched inbox message: `processed = false`
together with the message's subject, sender, body, date and id. -/
theorem c3_inserted_docs (now : Int) (inbox : List EmailMessage)
    (s : List Document) :
    (∀ d ∈ fetchAndStoreEmails now inbox s, d ∈ s ∨ ∃ m ∈ inbox,
      d = ingestDoc m ∧ d.processed = some false ∧ d.subject = some m.subject ∧
      d.sender = some m.sender ∧ d.body = some m.body ∧
      d.createdat = some m.date ∧ d.emailId = m.id) ∧
    (∀ d ∈ fetchAndStoreEmailsFrontend now inbox s, d ∈ s ∨ ∃ m ∈ inbox,
      d = ingestDoc m ∧ d.processed = some false ∧ d.subject = some m.subject ∧
      d.sender = some m.sender ∧ d.body = some m.body ∧
      d.createdat = some m.date ∧ d.emailId = m.id) := by
  constructor
  · intro d hd
    rcases mem_fetchLoop hd with h | ⟨m, hm, rfl⟩
    · exact Or.inl h
    · exact Or.inr ⟨m, searchInbox_subset _ _ _ _ _ hm, rfl, rfl, rfl, rfl, rfl, rfl, rfl⟩
  · intro d hd
    rcases mem_frontendLoop hd with h | ⟨m, hm, rfl⟩
    · exact Or.inl h
    · exact Or.inr ⟨m, searchInbox_subset _ _ _ _ _ hm, rfl, rfl, rfl, rfl, rfl, rfl, rfl⟩

/-- C3, witness: the document ingested for `mA` from the empty store. -/
theorem c3_inserted_docs_witness :
    ingestDoc mA ∈ ([] : List Document) ∨ ∃ m ∈ [mA],
      ingestDoc mA = ingestDoc m ∧ (ingestDoc mA).processed = some false ∧
      (ingestDoc mA).subject = some m.subject ∧
      (ingestDoc mA).sender = some m.sender ∧
      (ingestDoc mA).body = some m.body ∧
      (ingestDoc mA).createdat = some m.date ∧
      (ingestDoc mA).emailId = m.id :=
  (c3_inserted_docs 100 [mA] []).1 (ingestDoc mA) (by decide)

/-! ### Lemmas about the add/edit update -/

theorem applyTaskData_task {fi : FormInput} {t : String} (tm : Int)
    (d : Document) (h : fi.task = some t) :
    (applyTaskData fi tm d).task = some t := by
  simp [applyTaskData, h]

theorem mem_addTask {fi : FormInput} {tm : Int} {m : EmailMessage}
    {s : List Document} {d : Document} (hd : d ∈ addTask fi tm m s) :
    d ∈ s ∨ ∃ x, d = applyTaskData fi tm x := by
  unfold addTask at hd
  cases hfind : findOneByEmailId s m.id with
  | some y =>
      rw [hfind] at hd
      rcases mem_updateFirst hd with h | ⟨x, _, hx⟩
      · exact Or.inl h
      · exact Or.inr ⟨x, hx⟩
  | none =>
      rw [hfind] at hd
      rcases List.mem_append.mp hd with h | h
      · exact Or.inl h
      · exact Or.inr ⟨emailDocOf m, List.mem_singleton.mp h⟩

theorem mem_editTask {fi : FormInput} {tm : Int} {taskId : String}
    {s : List Document} {d : Document} (hd : d ∈ editTask fi tm taskId s) :
    d ∈ s ∨ ∃ x ∈ s, d = applyTaskData fi tm x := by
  rcases mem_updateFirst hd with h | ⟨x, hx, hdx⟩
  · exact Or.inl h
  · exact Or.inr ⟨x, List.mem_of_find?_eq_some hx, hdx⟩

/-! ### C4: the hastask invariant can be broken by a blank task headline -/

/-- C4, counterexample: submitting the add-task form with the task headline
left blank (the field is then absent from `formInput` and dropped from the
`$set` payload) writes a document with `hastask = true` and no `task` field,
violating the invariant for that user input. -/
theorem c4_counterexample :
    ¬ (∀ d ∈ addTask formNoTask 0 mA [ingestDoc mA],
        d.hastask = some true → d.task ≠ none) := by
  decide

/-- C4, amended: the invariant holds for every form input that supplies a
non-empty task headline: every document `addTask` or `editTask` writes then
has `hastask = true` with that non-empty `task` and the (always non-empty)
selected `urgency`.  Documents the run does not touch are returned as they
were. -/
theorem c4_amended (fi : FormInput) (tm : Int) (m : EmailMessage)
    (taskId : String) (s : List Document) (t : String)
    (htask : fi.task = some t) (ht : t ≠ "") (hu : fi.urgency ≠ "") :
    (∀ d ∈ addTask fi tm m s, d ∈ s ∨
      (d.hastask = some true ∧ d.task = some t ∧ t ≠ "" ∧
       d.urgency = some fi.urgency ∧ fi.urgency ≠ "")) ∧
    (∀ d ∈ editTask fi tm taskId s, d ∈ s ∨
      (d.hastask = some true ∧ d.task = some t ∧ t ≠ "" ∧
       d.urgency = some fi.urgency ∧ fi.urgency ≠ "")) := by
  constructor
  · intro d hd
    rcases mem_addTask hd with h | ⟨x, rfl⟩
    · exact Or.inl h
    · exact Or.inr ⟨rfl, applyTaskData_task tm x htask, ht, rfl, hu⟩
  · intro d hd
    rcases mem_editTask hd with h | ⟨x, _, rfl⟩
    · exact Or.inl h
    · exact Or.inr ⟨rfl, applyTaskData_task tm x htask, ht, rfl, hu⟩

/-- C4, witness: a fully filled form applied to a stored document. -/
theorem c4_amended_witness :
    applyTaskData formFull 0 docWithTask ∈ [docWithTask] ∨
      ((applyTaskData formFull 0 docWithTask).hastask = some true ∧
       (applyTaskData formFull 0 docWithTask).task = some "Do it" ∧
       "Do it" ≠ "" ∧
       (applyTaskData formFull 0 docWithTask).urgency = some formFull.urgency ∧
       formFull.urgency ≠ "") :=
  (c4_amended formFull 0 mA "m1" [docWithTask] "Do it" rfl (by decide)
    (by decide)).2 (applyTaskData formFull 0 docWithTask) (by decide)

/-! ### C5: the completed toggle on documents with the flag present -/

/-- C5, counterexample: on a stored document without a `completed` field
(every freshly ingested email document), the toggle writes `completed = false`
rather than the negation of the (absent, default-false) value, and toggling
twice yields `completed = true` instead of restoring the original document. -/
theorem c5_counterexample :
    (ingestDoc mA).completed = none ∧
    toggleTaskComplete (toggleTaskComplete [ingestDoc mA] "m1") "m1" ≠
      [ingestDoc mA] := by
  exact ⟨rfl, by decide⟩

/-- C5, amended: for every stored document whose `completed` field is present
with a boolean value, `toggleTaskComplete` replaces it with its negation and
leaves every other field (and every other document) unchanged, so applying it
twice restores the store. -/
theorem toggleTaskComplete_eq (s : List Document) (id : String) (d : Document)
    (b : Bool) (h : findOneByEmailId s id = some d) (hb : d.completed = some b) :
    toggleTaskComplete s id =
      updateFirst (byId id) (fun x => { x with completed := some (!b) }) s := by
  simp only [toggleTaskComplete, h, hb]
  cases b <;> rfl

theorem c5_amended (s : List Document) (id : String) (d : Document) (b : Bool)
    (h : findOneByEmailId s id = some d) (hb : d.completed = some b) :
    toggleTaskComplete (toggleTaskComplete s id) id = s ∧
    ∀ x ∈ toggleTaskComplete s id, x ∈ s ∨ x = { d with completed := some (!b) } := by
  have h1 := toggleTaskComplete_eq s id d b h hb
  have hpf : ∀ x : Document,
      byId id { x with completed := some (!b) } = byId id x := fun _ => rfl
  have hfind2 : findOneByEmailId
      (updateFirst (byId id) (fun x => { x with completed := some (!b) }) s) id =
      some { d with completed := some (!b) } := by
    show (updateFirst (byId id)
      (fun x => { x with completed := some (!b) }) s).find? (byId id) = _
    rw [find?_updateFirst hpf]
    rw [show s.find? (byId id) = some d from h]
    rfl
  have h2 := toggleTaskComplete_eq _ id { d with completed := some (!b) } (!b)
    hfind2 rfl
  constructor
  · rw [h1, h2, Bool.not_not, updateFirst_updateFirst hpf]
    refine updateFirst_of_fix (show s.find? (byId id) = some d from h) ?_
    show ({ d with completed := some b } : Document) = d
    cases d
    simp_all
  · intro x hx
    rw [h1] at hx
    rcases mem_updateFirst hx with h' | ⟨y, hy, hxy⟩
    · exact Or.inl h'
    · rw [show s.find? (byId id) = some d from h] at hy
      cases hy
      exact Or.inr hxy

/-- C5, witness: double toggle on a stored completed task restores the store. -/
theorem c5_amended_witness :
    toggleTaskComplete (toggleTaskComplete [docWithTask] "m1") "m1" =
      [docWithTask] :=
  (c5_amended [docWithTask] "m1" docWithTask true (by decide) rfl).1

/-! ### Lemmas about the trigger control record -/

theorem find?_upsertTriggered (b : Bool) (s1 : List Document) :
    ∃ d, findOneByEmailId (upsertTriggered b s1) "trigger" = some d ∧
      d.triggered = some b ∧ d.hastask = some false ∧ d.processed = some true := by
  have hpf : ∀ x : Document, byId "trigger" (triggerSet b x) = byId "trigger" x :=
    fun _ => rfl
  unfold upsertTriggered
  cases hf : findOneByEmailId s1 "trigger" with
  | some y =>
      refine ⟨triggerSet b y, ?_, rfl, rfl, rfl⟩
      show (updateFirst (byId "trigger") (triggerSet b) s1).find? (byId "trigger") = _
      rw [find?_updateFirst hpf]
      rw [show s1.find? (byId "trigger") = some y from hf]
      rfl
  | none =>
      refine ⟨freshTriggerDoc b, ?_, rfl, rfl, rfl⟩
      show (s1 ++ [freshTriggerDoc b]).find? (byId "trigger") = _
      rw [find?_append_of_none _ hf]
      rfl

theorem find?_deleteTrigger {s : List Document} {d0 : Document}
    (h : findOneByEmailId s "trigger" = some d0) :
    findOneByEmailId (deleteTrigger s) "trigger" = some (triggerSet false d0) := by
  show (updateFirst (byId "trigger") (triggerSet false) s).find? (byId "trigger") = _
  rw [find?_updateFirst (fun x => (rfl : byId "trigger" (triggerSet false x) = _))]
  rw [show s.find? (byId "trigger") = some d0 from h]
  rfl

/-! ### C6: createTrigger upserts; deleteTrigger does not -/

/-- C6, counterexample: on a store without the control record, `deleteTrigger`
(whose update carries no `upsert` flag) matches nothing and leaves no document
with `emailId = 'trigger'` and `triggered = false`, contradicting the claim
for that prior store state. -/
theorem c6_counterexample :
    ¬ ∃ d ∈ deleteTrigger ([] : List Document),
      d.emailId = "trigger" ∧ d.triggered = some false := by
  decide

/-- C6, amended: `createTrigger` always leaves the control record present
with `triggered = true` (creating it when absent, thanks to its upsert);
`deleteTrigger` rewrites the control record to `triggered = false` when one
exists, but on a store without the control record it changes nothing. -/
theorem c6_amended (now : Int) (inbox : List EmailMessage) (s : List Document) :
    (∃ d, findOneByEmailId (createTrigger now inbox s) "trigger" = some d ∧
      d.triggered = some true ∧ d.hastask = some false ∧ d.processed = some true) ∧
    (∀ d0, findOneByEmailId s "trigger" = some d0 →
      findOneByEmailId (deleteTrigger s) "trigger" = some (triggerSet false d0) ∧
      (triggerSet false d0).triggered = some false) ∧
    (findOneByEmailId s "trigger" = none → deleteTrigger s = s) := by
  refine ⟨find?_upsertTriggered true (fetchAndStoreEmails now inbox s), ?_, ?_⟩
  · intro d0 h
    exact ⟨find?_deleteTrigger h, rfl⟩
  · intro h
    exact updateFirst_of_find?_none h

/-- C6, witness: deleting the trigger on a store holding the control record. -/
theorem c6_amended_witness :
    findOneByEmailId (deleteTrigger [freshTriggerDoc true]) "trigger" =
      some (triggerSet false (freshTriggerDoc true)) ∧
    (triggerSet false (freshTriggerDoc true)).triggered = some false :=
  (c6_amended 0 [] [freshTriggerDoc true]).2.1 (freshTriggerDoc true) (by decide)

/-! ### C7: the two front-end variants are not equivalent -/

/-- The existence check of part_000's loop is dead (its `document` field read
is always undefined), so the two per-thread loops act identically. -/
theorem fetchLoop_eq_frontendLoop :
    ∀ (msgs : List EmailMessage) (s : List Document),
      fetchLoop msgs s = frontendLoop msgs s := by
  intro msgs
  induction msgs with
  | nil => intro s; rfl
  | cons m ms ih =>
      intro s
      by_cases hex : m.sender == excludedEmail
      · simp [fetchLoop, frontendLoop, hex, ih]
      · simp [fetchLoop, frontendLoop, hex, FindResponse.documentField, ih]

/-- C7, counterexample: on the same inbox (one primary message ten days old)
and the same empty store, the part_000 variant ingests the message (14-day
window) while the appscript-frontend variant does not (7-day window), so the
final stores differ. -/
theorem c7_counterexample :
    fetchAndStoreEmails 1209600000 [mOld] [] ≠
      fetchAndStoreEmailsFrontend 1209600000 [mOld] [] := by
  decide

/-- C7, amended: the two variants agree exactly on inboxes their different
Gmail searches treat alike: when every message is within the stricter 7-day
window, is in the primary category, and the inbox fits the stricter 10-thread
cap, both variants produce the same final store from any initial store (the
dedup check of part_000 never fires, so neither variant skips stored
duplicates). -/
theorem c7_amended (now : Int) (inbox : List EmailMessage) (s : List Document)
    (hdate : ∀ m ∈ inbox, now - 604800000 ≤ m.date)
    (hprim : ∀ m ∈ inbox, m.primary = true)
    (hlen : inbox.length ≤ 10) :
    fetchAndStoreEmails now inbox s = fetchAndStoreEmailsFrontend now inbox s := by
  unfold fetchAndStoreEmails fetchAndStoreEmailsFrontend
  have h14 : searchInbox (now - 86400000 * 14) true 50 inbox = inbox := by
    unfold searchInbox
    rw [List.filter_eq_self.mpr ?_]
    · exact List.take_of_length_le (le_trans hlen (by norm_num))
    · intro m hm
      have h1 := hdate m hm
      have h2 := hprim m hm
      simp only [h2, Bool.not_true, Bool.false_or, Bool.and_true,
        decide_eq_true_eq]
      omega
  have h7 : searchInbox (now - 604800000) false 10 inbox = inbox := by
    unfold searchInbox
    rw [List.filter_eq_self.mpr ?_]
    · exact List.take_of_length_le hlen
    · intro m hm
      have h1 := hdate m hm
      simp only [Bool.not_false, Bool.true_or, Bool.and_true, decide_eq_true_eq]
      omega
  rw [h14, h7, fetchLoop_eq_frontendLoop]

/-- C7, witness: a fresh recent primary message is ingested identically. -/
theorem c7_amended_witness :
    fetchAndStoreEmails 0 [mA] [] = fetchAndStoreEmailsFrontend 0 [mA] [] :=
  c7_amended 0 [mA] [] (by decide) (by decide) (by decide)

/-! ### C8: editTask unconditionally writes completed=false -/

/-- C8: for every stored document and every edit form input, the `$set` of
`editTask` writes `completed = false`, `hastask = true`, `processed = true`
on the edited document (so a completed task becomes uncompleted), and no
other document changes. -/
theorem c8_editTask_uncompletes (fi : FormInput) (tm : Int) (taskId : String)
    (s : List Document) (d : Document)
    (h : findOneByEmailId s taskId = some d) :
    applyTaskData fi tm d ∈ editTask fi tm taskId s ∧
    (applyTaskData fi tm d).completed = some false ∧
    (applyTaskData fi tm d).hastask = some true ∧
    (applyTaskData fi tm d).processed = some true ∧
    ∀ x ∈ editTask fi tm taskId s, x ∈ s ∨ x = applyTaskData fi tm d := by
  refine ⟨image_mem_updateFirst h, rfl, rfl, rfl, ?_⟩
  intro x hx
  rcases mem_updateFirst hx with h' | ⟨y, hy, hxy⟩
  · exact Or.inl h'
  · rw [show s.find? (byId taskId) = some d from h] at hy
    cases hy
    exact Or.inr hxy

/-- C8, witness: editing the stored completed task `docWithTask`. -/
theorem c8_editTask_uncompletes_witness :
    docWithTask.completed = some true ∧
    (applyTaskData formFull 0 docWithTask).completed = some false :=
  ⟨rfl, (c8_editTask_uncompletes formFull 0 "m1" [docWithTask] docWithTask
    (by decide)).2.1⟩

/-! ### C9: the control record never matches the task-reading queries -/

/-- C9: after `createTrigger` the control record (the first document the
store returns for `{emailId: 'trigger'}`) has `hastask = false`; after
`deleteTrigger` on a store holding the control record it still has
`hastask = false`; and both task-reading filters (`fetchAndDisplayTasks` and
`fetchCurrentEmailTask`) require `hastask = true`, so a document with
`hastask = false` is never returned as a task. -/
theorem c9_control_record (now : Int) (inbox : List EmailMessage)
    (s : List Document) (d0 : Document)
    (h : findOneByEmailId s "trigger" = some d0)
    (filterStr currentId : String) :
    (∃ d, findOneByEmailId (createTrigger now inbox s) "trigger" = some d ∧
      d.hastask = some false) ∧
    (∃ d, findOneByEmailId (deleteTrigger s) "trigger" = some d ∧
      d.hastask = some false) ∧
    (∀ d : Document, d.hastask = some false →
      displayQueryMatch filterStr currentId d = false ∧
      currentEmailQueryMatch currentId d = false) := by
  refine ⟨?_, ?_, ?_⟩
  · obtain ⟨d, hd, _, hht, _⟩ :=
      find?_upsertTriggered true (fetchAndStoreEmails now inbox s)
    exact ⟨d, hd, hht⟩
  · exact ⟨triggerSet false d0, find?_deleteTrigger h, rfl⟩
  · intro d hd
    constructor
    · simp [displayQueryMatch, hd]
    · simp [currentEmailQueryMatch, hd]

/-- C9, witness: the reset control record matches neither query. -/
theorem c9_control_record_witness :
    displayQueryMatch "All" "m1" (triggerSet false (freshTriggerDoc true)) = false ∧
    currentEmailQueryMatch "m1" (triggerSet false (freshTriggerDoc true)) = false :=
  (c9_control_record 0 [] [freshTriggerDoc true] (freshTriggerDoc true)
    (by decide) "All" "m1").2.2 (triggerSet false (freshTriggerDoc true)) rfl

/-! ### C10: the deadline is stored only when it differs from today's midnight -/

theorem applyTaskData_deadline_eq {fi : FormInput} {tm : Int} (d : Document)
    (h : fi.deadline = tm) : (applyTaskData fi tm d).deadline = d.deadline := by
  simp [applyTaskData, h]

theorem applyTaskData_deadline_ne {fi : FormInput} {tm : Int} (d : Document)
    (h : fi.deadline ≠ tm) :
    (applyTaskData fi tm d).deadline = some fi.deadline := by
  simp [applyTaskData, h]

/-- C10: in `addTask` and `editTask`, when the picked date-time equals
today's midnight `tm` (the picker default) the written documents keep
whatever deadline their source had (the field is omitted from the update, so
a deadline equal to that midnight is never written); when the picked value
differs, the touched document's deadline becomes exactly the picked value. -/
theorem c10_deadline (fi : FormInput) (tm : Int) (m : EmailMessage)
    (taskId : String) (s : List Document) :
    (fi.deadline = tm →
      (∀ d ∈ addTask fi tm m s, d ∈ s ∨
        ∃ x, d = applyTaskData fi tm x ∧ d.deadline = x.deadline) ∧
      (∀ d ∈ editTask fi tm taskId s, d ∈ s ∨
        ∃ x ∈ s, d = applyTaskData fi tm x ∧ d.deadline = x.deadline)) ∧
    (fi.deadline ≠ tm →
      (∀ d ∈ addTask fi tm m s, d ∈ s ∨ d.deadline = some fi.deadline) ∧
      (∀ d ∈ editTask fi tm taskId s, d ∈ s ∨ d.deadline = some fi.deadline)) := by
  constructor
  · intro heq
    constructor
    · intro d hd
      rcases mem_addTask hd with h | ⟨x, rfl⟩
      · exact Or.inl h
      · exact Or.inr ⟨x, rfl, applyTaskData_deadline_eq x heq⟩
    · intro d hd
      rcases mem_editTask hd with h | ⟨x, hx, rfl⟩
      · exact Or.inl h
      · exact Or.inr ⟨x, hx, rfl, applyTaskData_deadline_eq x heq⟩
  · intro hne
    constructor
    · intro d hd
      rcases mem_addTask hd with h | ⟨x, rfl⟩
      · exact Or.inl h
      · exact Or.inr (applyTaskData_deadline_ne x hne)
    · intro d hd
      rcases mem_editTask hd with h | ⟨x, _, rfl⟩
      · exact Or.inl h
      · exact Or.inr (applyTaskData_deadline_ne x hne)

/-- C10, witness: a picked deadline differing from midnight is stored. -/
theorem c10_deadline_witness :
    applyTaskData formFull 0 docWithTask ∈ [docWithTask] ∨
      (applyTaskData formFull 0 docWithTask).deadline = some formFull.deadline :=
  ((c10_deadline formFull 0 mA "m1" [docWithTask]).2 (by decide)).2
    (applyTaskData formFull 0 docWithTask) (by decide)
